import Mathlib

/-!
Shallow embedding of `rusqlite-helper` (`src/lib.rs`), a helper layer over
SQLite providing table creation, typed insert and typed query.

The storage engine (rusqlite) and the serialization layer (serde_rusqlite)
are external collaborators; they are modelled abstractly:
an `Engine` supplies `execute` (statement execution returning the number of
affected rows) and `prepareQuery` (prepare + run a SELECT, returning the
result rows), and a record's serde serialization is represented by its
outcome, an `Except` of named parameters.  Every operation of the library
additionally returns the list of SQL statement texts it handed to the
engine, in order, so that the effect of a call on the database is visible.
-/

namespace RusqliteHelper

/-- A SQLite value, as bound to a parameter or read from a result column. -/
inductive SqlValue
  | null
  | integer (n : Int)
  | text (s : String)
  deriving DecidableEq, Repr

/-- One result row: named columns, as consumed by `serde_rusqlite::from_row`. -/
abbrev Row := List (String × SqlValue)

/-- Named parameters, as produced by `serde_rusqlite::to_params_named`. -/
abbrev NamedParams := List (String × SqlValue)

/-- Opaque wrapper for `rusqlite::Error` (engine-native error, wrapped verbatim). -/
structure RusqliteError where
  msg : String
  deriving DecidableEq, Repr

/-- Opaque wrapper for `serde_rusqlite::Error` (serialization-layer error). -/
structure SerdeRusqliteError where
  msg : String
  deriving DecidableEq, Repr

/-- The crate's error type `RusqliteHelperError` (src/lib.rs lines 81-87):
`SQLite` wraps a `rusqlite::Error`, `Serialization` wraps a
`serde_rusqlite::Error`. -/
inductive RusqliteHelperError
  | SQLite (e : RusqliteError)
  | Serialization (e : SerdeRusqliteError)
  deriving DecidableEq, Repr

/-- One entry of SQLite's `pragma table_list` result: column 0 is the schema,
column 1 the name, column 2 the kind (`"table"`, `"view"`, ...). -/
structure CatalogRow where
  schema : String
  name : String
  ty : String
  deriving DecidableEq, Repr

/-- The storage engine as seen by this layer: `execute` runs one statement
with named parameters and reports the number of affected rows;
`prepareQuery` prepares and runs a SELECT with positional parameters and
returns all result rows.  Either can fail with an engine error. -/
structure Engine where
  execute : String → NamedParams → Except RusqliteError Nat
  prepareQuery : String → List SqlValue → Except RusqliteError (List Row)

/-- `tables(c)` (src/lib.rs lines 89-104): folds over the `pragma table_list`
rows, inserting the name (column 1) into a `HashSet` whenever the kind
(column 2) equals `"table"`.  The `HashSet<String>` is modelled as a
`Finset String`. -/
def tables (catalog : List CatalogRow) : Finset String :=
  catalog.foldl (fun acc row => if row.ty = "table" then insert row.name acc else acc) ∅

/-- `Table` (src/lib.rs lines 106-109): name plus column-definition fragment.
The source field `def` is a Lean keyword, hence `def_`. -/
structure Table where
  name : String
  def_ : String
  deriving DecidableEq, Repr

/-- `InsertConflictResolution` (src/lib.rs lines 111-120). -/
inductive InsertConflictResolution
  | None
  | Ignore
  | Abort
  | Replace
  | Upsert (onConflict : String)
  deriving DecidableEq, Repr

/-- The DROP statement text issued by `Table::create`:
`format!("DROP TABLE {name};")`. -/
def dropSql (name : String) : String :=
  "DROP TABLE " ++ name ++ ";"

/-- The CREATE statement text issued by `Table::create`:
`format!("CREATE TABLE {name} ({def})")`. -/
def createSql (name def_ : String) : String :=
  "CREATE TABLE " ++ name ++ " (" ++ def_ ++ ")"

/-- Rust's `slice::join` on strings: empty list gives `""`, otherwise the
elements interleaved with the separator. -/
def joinSep (sep : String) : List String → String
  | [] => ""
  | [x] => x
  | x :: y :: ys => x ++ sep ++ joinSep sep (y :: ys)

/-- The `values` string of `Table::insert` (src/lib.rs lines 160-164):
`fields.join(", :")` with `':'` inserted at position 0. -/
def valuesClause (fields : List String) : String :=
  ":" ++ joinSep ", :" fields

/-- The SQL text built by `Table::insert` (src/lib.rs lines 159-182):
five-way match on the conflict policy around
`INSERT [OR <mode>] INTO {name} ({fields}) VALUES ({values}) [{on_conflict}]`,
with the column list joined by `","` and the placeholder list by `", :"`. -/
def insertSql (name : String) (fields : List String)
    (conflict : InsertConflictResolution) : String :=
  let values := valuesClause fields
  let fieldsStr := joinSep "," fields
  match conflict with
  | .None =>
    "INSERT INTO " ++ name ++ " (" ++ fieldsStr ++ ") VALUES (" ++ values ++ ")"
  | .Ignore =>
    "INSERT OR IGNORE INTO " ++ name ++ " (" ++ fieldsStr ++ ") VALUES (" ++ values ++ ")"
  | .Abort =>
    "INSERT OR ABORT INTO " ++ name ++ " (" ++ fieldsStr ++ ") VALUES (" ++ values ++ ")"
  | .Replace =>
    "INSERT OR REPLACE INTO " ++ name ++ " (" ++ fieldsStr ++ ") VALUES (" ++ values ++ ")"
  | .Upsert onConflict =>
    "INSERT INTO " ++ name ++ " (" ++ fieldsStr ++ ") VALUES (" ++ values ++ ") " ++ onConflict

/-- `Table::create` (src/lib.rs lines 130-148).  Returns the list of SQL
statements actually handed to the engine, in order, together with the
result.  `exists` is membership of the name in the caller-supplied set;
`create = !exists || force`; a DROP is executed first when the table exists,
then the CREATE; each `?` propagates the engine error wrapped as `SQLite`. -/
def Table.create (t : Table) (eng : Engine) (tbls : Finset String) (force : Bool) :
    List String × Except RusqliteHelperError Unit :=
  let exists_ : Bool := decide (t.name ∈ tbls)
  let create : Bool := !exists_ || force
  if create then
    if exists_ then
      match eng.execute (dropSql t.name) [] with
      | .error e => ([dropSql t.name], .error (.SQLite e))
      | .ok _ =>
        match eng.execute (createSql t.name t.def_) [] with
        | .error e => ([dropSql t.name, createSql t.name t.def_], .error (.SQLite e))
        | .ok _ => ([dropSql t.name, createSql t.name t.def_], .ok ())
    else
      match eng.execute (createSql t.name t.def_) [] with
      | .error e => ([createSql t.name t.def_], .error (.SQLite e))
      | .ok _ => ([createSql t.name t.def_], .ok ())
  else ([], .ok ())

/-- The observable outcome of `Table::insert`: a returned `Ok(bool)`, a
returned `Err(RusqliteHelperError)`, or a panic (the `.unwrap()` on
`to_params_named(row)` aborts instead of returning). -/
inductive InsertOutcome
  | ok (affected : Bool)
  | err (e : RusqliteHelperError)
  | panicked
  deriving DecidableEq, Repr

/-- `Table::insert` (src/lib.rs lines 152-186).  The record argument is
represented by the outcome of `serde_rusqlite::to_params_named(row)`.
The source builds the SQL, then evaluates
`to_params_named(row).unwrap()` — panicking on a serialization error before
the engine is called — and finally executes the statement, returning
`Ok(n != 0)` where `n` is the affected-row count. -/
def Table.insert (t : Table) (eng : Engine)
    (toParamsNamed : Except SerdeRusqliteError NamedParams)
    (fields : List String) (conflict : InsertConflictResolution) :
    List String × InsertOutcome :=
  let sql := insertSql t.name fields conflict
  match toParamsNamed with
  | .error _ => ([], .panicked)
  | .ok params =>
    match eng.execute sql params with
    | .error e => ([sql], .err (.SQLite e))
    | .ok n => ([sql], .ok (n != 0))

/-- The row-collection step of `Table::query`:
`rows.collect::<Result<Vec<D>, _>>()` over `from_row` applied to each row —
the first row that fails to deserialize aborts the collection with its
error, discarding everything collected so far. -/
def collectRows {D : Type} (fromRow : Row → Except SerdeRusqliteError D) :
    List Row → Except SerdeRusqliteError (List D)
  | [] => .ok []
  | r :: rs =>
    match fromRow r with
    | .error e => .error e
    | .ok d =>
      match collectRows fromRow rs with
      | .error e => .error e
      | .ok ds => .ok (d :: ds)

/-- `Table::query` (src/lib.rs lines 188-198).  Prepares and runs
`SELECT * FROM {name} {where_stmt};` (a preparation/execution failure is
wrapped as `SQLite`), then deserializes every row via
`serde_rusqlite::from_row` — the deserializer for the target record type is
the `fromRow` argument — collecting eagerly; a per-row failure is wrapped as
`Serialization`. -/
def Table.query {D : Type} (t : Table) (eng : Engine) (whereStmt : String)
    (params : List SqlValue) (fromRow : Row → Except SerdeRusqliteError D) :
    Except RusqliteHelperError (List D) :=
  let sql := "SELECT * FROM " ++ t.name ++ " " ++ whereStmt ++ ";"
  match eng.prepareQuery sql params with
  | .error e => .error (.SQLite e)
  | .ok rows =>
    match collectRows fromRow rows with
    | .error e => .error (.Serialization e)
    | .ok ds => .ok ds

/-- The conflict-mode-to-SQL mapping as the specification's table in section
4.3 states it (a second definition, written from the spec's words, to be
compared with `insertSql` from the source): column list and placeholder list
`(:f1, :f2, ...)` with one named placeholder per field in the given order,
and the five documented prefixes, the `Upsert` fragment appended verbatim
after the `VALUES` clause. -/
def specConflictMappingSql (name : String) (fields : List String)
    (conflict : InsertConflictResolution) : String :=
  let cols := joinSep "," fields
  let phs := joinSep ", " (fields.map (fun f => ":" ++ f))
  let core := name ++ " (" ++ cols ++ ") VALUES (" ++ phs ++ ")"
  match conflict with
  | .None => "INSERT INTO " ++ core
  | .Ignore => "INSERT OR IGNORE INTO " ++ core
  | .Abort => "INSERT OR ABORT INTO " ++ core
  | .Replace => "INSERT OR REPLACE INTO " ++ core
  | .Upsert f => "INSERT INTO " ++ core ++ " " ++ f

/-- An engine in which every statement reports one affected row and every
query returns no rows. -/
def okEngine : Engine :=
  ⟨fun _ _ => .ok 1, fun _ _ => .ok []⟩

/-- An engine in which every statement reports zero affected rows — as
SQLite does when an `ON CONFLICT ... DO NOTHING` clause (or `OR IGNORE`)
suppresses the insert. -/
def zeroChangesEngine : Engine :=
  ⟨fun _ _ => .ok 0, fun _ _ => .ok []⟩

/-- An engine whose queries return a fixed list of rows. -/
def rowsEngine (rows : List Row) : Engine :=
  ⟨fun _ _ => .ok 1, fun _ _ => .ok rows⟩

/-!  General lemmas about the embedded operations. -/

theorem placeholder_join (fields : List String) (h : fields ≠ []) :
    ":" ++ joinSep ", :" fields = joinSep ", " (fields.map (fun f => ":" ++ f)) := by
  induction fields with
  | nil => exact absurd rfl h
  | cons x xs ih =>
    cases xs with
    | nil => rfl
    | cons y ys =>
      have hcons : y :: ys ≠ [] := by simp
      calc ":" ++ joinSep ", :" (x :: y :: ys)
          = ":" ++ (x ++ ", :" ++ joinSep ", :" (y :: ys)) := rfl
        _ = (":" ++ x) ++ ", " ++ (":" ++ joinSep ", :" (y :: ys)) := by
              show ":" ++ (x ++ (", " ++ ":") ++ joinSep ", :" (y :: ys)) =
                (":" ++ x) ++ ", " ++ (":" ++ joinSep ", :" (y :: ys))
              simp only [String.append_assoc]
        _ = (":" ++ x) ++ ", " ++ joinSep ", " ((y :: ys).map (fun f => ":" ++ f)) := by
              rw [ih hcons]
        _ = joinSep ", " ((x :: y :: ys).map (fun f => ":" ++ f)) := rfl

theorem dropSql_ne_createSql (n m d : String) : dropSql n ≠ createSql m d := by
  intro h
  have hd := congrArg String.data h
  simp [dropSql, createSql, String.data_append] at hd

theorem mem_tables_aux (catalog : List CatalogRow) (acc : Finset String) (x : String) :
    (x ∈ catalog.foldl
        (fun a row => if row.ty = "table" then insert row.name a else a) acc) ↔
      x ∈ acc ∨ ∃ r ∈ catalog, r.ty = "table" ∧ r.name = x := by
  induction catalog generalizing acc with
  | nil => simp
  | cons r rs ih =>
    simp only [List.foldl_cons, ih, List.mem_cons]
    by_cases hty : r.ty = "table"
    · rw [if_pos hty]
      simp only [Finset.mem_insert]
      constructor
      · rintro (⟨rfl | hx⟩ | ⟨r', hr', hr'ty, hr'name⟩)
        · exact Or.inr ⟨r, Or.inl rfl, hty, rfl⟩
        · exact Or.inl hx
        · exact Or.inr ⟨r', Or.inr hr', hr'ty, hr'name⟩
      · rintro (hx | ⟨r', hr' | hr', hr'ty, hr'name⟩)
        · exact Or.inl (Or.inr hx)
        · subst hr'
          exact Or.inl (Or.inl hr'name.symm)
        · exact Or.inr ⟨r', hr', hr'ty, hr'name⟩
    · rw [if_neg hty]
      constructor
      · rintro (hx | ⟨r', hr', hr'ty, hr'name⟩)
        · exact Or.inl hx
        · exact Or.inr ⟨r', Or.inr hr', hr'ty, hr'name⟩
      · rintro (hx | ⟨r', hr' | hr', hr'ty, hr'name⟩)
        · exact Or.inl hx
        · exact absurd (hr' ▸ hr'ty) hty
        · exact Or.inr ⟨r', hr', hr'ty, hr'name⟩

theorem collectRows_map {D : Type} (fromRow : Row → Except SerdeRusqliteError D)
    (g : Row → D) (rows : List Row) (h : ∀ r ∈ rows, fromRow r = .ok (g r)) :
    collectRows fromRow rows = .ok (rows.map g) := by
  induction rows with
  | nil => rfl
  | cons r rs ih =>
    have hr : fromRow r = .ok (g r) := h r (List.mem_cons_self r rs)
    have hrs := ih (fun r' hr' => h r' (List.mem_cons_of_mem r hr'))
    simp [collectRows, hr, hrs]

theorem collectRows_error {D : Type} (fromRow : Row → Except SerdeRusqliteError D)
    (g : Row → D) (pre post : List Row) (r : Row) (e : SerdeRusqliteError)
    (hpre : ∀ r' ∈ pre, fromRow r' = .ok (g r')) (hr : fromRow r = .error e) :
    collectRows fromRow (pre ++ r :: post) = .error e := by
  induction pre with
  | nil => simp [collectRows, hr]
  | cons p ps ih =>
    have hp : fromRow p = .ok (g p) := hpre p (List.mem_cons_self p ps)
    have hps := ih (fun r' h' => hpre r' (List.mem_cons_of_mem p h'))
    simp [collectRows, hp, hps]

/-- A deserializer for a one-integer-column record: succeeds on a row whose
first column is named `acct` and holds an integer, fails otherwise. -/
def fromRowInt : Row → Except SerdeRusqliteError Int :=
  fun r => match r with
    | ("acct", .integer n) :: _ => .ok n
    | _ => .error ⟨"missing or mistyped column"⟩

/-- The total reading function agreeing with `fromRowInt` on rows it accepts. -/
def readRowInt : Row → Int :=
  fun r => match r with
    | ("acct", .integer n) :: _ => n
    | _ => 0

/-!  The claims. -/

/-- C1: the claim says a record that cannot be decomposed into named
parameters makes `Table::insert` return a `Serialization` error and never
panic.  The code calls `to_params_named(row).unwrap()`: on a serialization
failure it panics before any statement is executed, and the `Serialization`
variant of `RusqliteHelperError` (which the error enum provides for exactly
this, and which `query` does use) is never returned by `insert`.  This
theorem evaluates the embedded `insert` at such a failing record. -/
theorem insert_panics_on_serialization_failure :
    (Table.mk "accounts" "acct TEXT").insert okEngine
        (.error ⟨"record cannot be decomposed into named parameters"⟩) ["acct"] .None =
      ([], .panicked) := rfl

/-- C2 counterexample: a successful `insert` under an `Upsert` policy that
returns `false`.  The engine reports zero affected rows — exactly what
SQLite reports when the caller-supplied fragment is
`ON CONFLICT ... DO NOTHING` and a conflict suppresses the write — and the
code returns `Ok(n != 0) = Ok(false)` although the policy is not `Ignore`,
refuting "under every other policy ... a successful call returns true". -/
theorem insert_upsert_success_returns_false :
    (Table.mk "accounts" "acct TEXT").insert zeroChangesEngine
        (.ok [("acct", .text "a")]) ["acct"] (.Upsert "ON CONFLICT(acct) DO NOTHING") =
      ([insertSql "accounts" ["acct"] (.Upsert "ON CONFLICT(acct) DO NOTHING")],
        .ok false) := rfl

/-- C2 amended: for every successful call, the returned boolean is exactly
whether the engine reported at least one affected row; it is not determined
by the conflict policy alone — it is `false` whenever the affected-row count
is zero, which `Ignore` produces on a suppressed write and which an `Upsert`
fragment such as `ON CONFLICT ... DO NOTHING` can also produce. -/
theorem insert_returns_affected_nonzero (t : Table) (eng : Engine)
    (params : NamedParams) (fields : List String)
    (conflict : InsertConflictResolution) (n : Nat)
    (h : eng.execute (insertSql t.name fields conflict) params = .ok n) :
    t.insert eng (.ok params) fields conflict =
      ([insertSql t.name fields conflict], .ok (n != 0)) := by
  simp [Table.insert, h]

/-- Witness for the amended C2 at a concrete input. -/
theorem insert_returns_affected_nonzero_witness :
    okEngine.execute (insertSql "accounts" ["acct"] .Ignore)
        [("acct", .text "a")] = .ok 1 ∧
      (Table.mk "accounts" "acct TEXT").insert okEngine
          (.ok [("acct", .text "a")]) ["acct"] .Ignore =
        ([insertSql "accounts" ["acct"] .Ignore], .ok true) :=
  ⟨rfl, insert_returns_affected_nonzero (Table.mk "accounts" "acct TEXT") okEngine
    [("acct", .text "a")] ["acct"] .Ignore 1 rfl⟩

/-- C3: for every table name, non-empty field list and conflict policy, the
SQL text built by `Table::insert` equals the text the specification's
conflict-mode table prescribes — the documented `INSERT [OR <mode>] INTO`
prefix, the column list, and one `:field` placeholder per field in the given
order, with an `Upsert` fragment appended verbatim at the end. -/
theorem insertSql_follows_conflict_mapping (name : String) (fields : List String)
    (h : fields ≠ []) (conflict : InsertConflictResolution) :
    insertSql name fields conflict = specConflictMappingSql name fields conflict := by
  have hv : valuesClause fields = joinSep ", " (fields.map (fun f => ":" ++ f)) :=
    placeholder_join fields h
  cases conflict with
  | None => simp only [insertSql, specConflictMappingSql, hv, String.append_assoc]
  | Ignore => simp only [insertSql, specConflictMappingSql, hv, String.append_assoc]
  | Abort => simp only [insertSql, specConflictMappingSql, hv, String.append_assoc]
  | Replace => simp only [insertSql, specConflictMappingSql, hv, String.append_assoc]
  | Upsert f =>
      simp only [insertSql, specConflictMappingSql, hv]
      rw [show (") " : String) = ")" ++ " " from rfl]
      simp only [String.append_assoc]

/-- Witness for C3 at a concrete input. -/
theorem insertSql_follows_conflict_mapping_witness :
    (["acct", "id"] : List String) ≠ [] ∧
      insertSql "accounts" ["acct", "id"]
          (.Upsert "ON CONFLICT(acct) DO UPDATE SET id = :id") =
        specConflictMappingSql "accounts" ["acct", "id"]
          (.Upsert "ON CONFLICT(acct) DO UPDATE SET id = :id") :=
  ⟨by decide, insertSql_follows_conflict_mapping "accounts" ["acct", "id"]
    (by decide) (.Upsert "ON CONFLICT(acct) DO UPDATE SET id = :id")⟩

/-- C4: when the descriptor's name is in the existing-tables set and force is
false, `create` hands no statement at all to the engine (no DROP, no CREATE)
and returns success — the table's contents are untouched. -/
theorem create_noop_when_present_not_forced (t : Table) (eng : Engine)
    (tbls : Finset String) (h : t.name ∈ tbls) :
    t.create eng tbls false = ([], .ok ()) := by
  simp [Table.create, h]

/-- Witness for C4 at a concrete input. -/
theorem create_noop_when_present_not_forced_witness :
    (Table.mk "accounts" "acct TEXT").name ∈
        ({"accounts", "statuses"} : Finset String) ∧
      (Table.mk "accounts" "acct TEXT").create okEngine
          {"accounts", "statuses"} false = ([], .ok ()) :=
  ⟨by decide, create_noop_when_present_not_forced (Table.mk "accounts" "acct TEXT")
    okEngine {"accounts", "statuses"} (by decide)⟩

/-- C5: with the name present and force true, `create` issues the DROP
statement first and then the CREATE statement built from the stored
column-definition fragment (the CREATE once the DROP has succeeded); with
the name absent it issues exactly the CREATE statement, whatever force is. -/
theorem create_issues_drop_then_create (t : Table) (eng : Engine)
    (tbls : Finset String) :
    (∀ m, t.name ∈ tbls → eng.execute (dropSql t.name) [] = .ok m →
      (t.create eng tbls true).1 = [dropSql t.name, createSql t.name t.def_]) ∧
    (t.name ∉ tbls → ∀ force,
      (t.create eng tbls force).1 = [createSql t.name t.def_]) := by
  constructor
  · intro m hmem hdrop
    cases hc : eng.execute (createSql t.name t.def_) [] <;>
      simp [Table.create, hmem, hdrop, hc]
  · intro hmem force
    cases hc : eng.execute (createSql t.name t.def_) [] <;>
      simp [Table.create, hmem, hc]

/-- Witness for C5 at concrete inputs: present-and-forced drops then
creates; absent creates only. -/
theorem create_issues_drop_then_create_witness :
    ((Table.mk "accounts" "acct TEXT").create okEngine {"accounts"} true).1 =
        [dropSql "accounts", createSql "accounts" "acct TEXT"] ∧
      ((Table.mk "accounts" "acct TEXT").create okEngine ∅ false).1 =
        [createSql "accounts" "acct TEXT"] :=
  ⟨(create_issues_drop_then_create (Table.mk "accounts" "acct TEXT") okEngine
      {"accounts"}).1 1 (by decide) rfl,
   (create_issues_drop_then_create (Table.mk "accounts" "acct TEXT") okEngine
      ∅).2 (by decide) false⟩

/-- C6: a name is in `tables(catalog)` exactly when some catalog entry of
kind `"table"` carries it — views, indexes and every other entry kind are
excluded; the result being a `Finset` gives each name at most once, with no
ordering. -/
theorem tables_exactly_table_entries (catalog : List CatalogRow) (x : String) :
    x ∈ tables catalog ↔ ∃ r ∈ catalog, r.ty = "table" ∧ r.name = x := by
  have h := mem_tables_aux catalog ∅ x
  simpa [tables] using h

/-- C7: `query` returns success with the empty list when the engine returns
no rows, and, when every returned row deserializes, the complete eagerly
collected list of records in the engine's row order. -/
theorem query_returns_all_rows {D : Type} (t : Table) (eng : Engine) (w : String)
    (params : List SqlValue) (fromRow : Row → Except SerdeRusqliteError D)
    (g : Row → D) :
    (eng.prepareQuery ("SELECT * FROM " ++ t.name ++ " " ++ w ++ ";") params = .ok [] →
      t.query eng w params fromRow = .ok []) ∧
    (∀ rows,
      eng.prepareQuery ("SELECT * FROM " ++ t.name ++ " " ++ w ++ ";") params = .ok rows →
      (∀ r ∈ rows, fromRow r = .ok (g r)) →
      t.query eng w params fromRow = .ok (rows.map g)) := by
  constructor
  · intro h
    simp [Table.query, h, collectRows]
  · intro rows h hall
    simp [Table.query, h, collectRows_map fromRow g rows hall]

/-- Witness for C7 at a concrete input: one row, deserialized and returned. -/
theorem query_returns_all_rows_witness :
    (Table.mk "accounts" "acct INTEGER").query
        (rowsEngine [[("acct", SqlValue.integer 7)]]) "" [] fromRowInt =
      .ok [7] :=
  (query_returns_all_rows (Table.mk "accounts" "acct INTEGER")
      (rowsEngine [[("acct", SqlValue.integer 7)]]) "" [] fromRowInt readRowInt).2
    [[("acct", SqlValue.integer 7)]] rfl
    (by
      intro r hr
      rw [List.mem_singleton] at hr
      subst hr
      rfl)

/-- C8: when some returned row cannot be mapped onto the record type, the
whole query fails with a `Serialization` error (not a storage-engine error):
rows deserialized before the failing one are discarded, never returned. -/
theorem query_row_failure_aborts {D : Type} (t : Table) (eng : Engine) (w : String)
    (params : List SqlValue) (fromRow : Row → Except SerdeRusqliteError D)
    (g : Row → D) (pre post : List Row) (r : Row) (e : SerdeRusqliteError)
    (hq : eng.prepareQuery ("SELECT * FROM " ++ t.name ++ " " ++ w ++ ";") params =
      .ok (pre ++ r :: post))
    (hpre : ∀ r' ∈ pre, fromRow r' = .ok (g r'))
    (hr : fromRow r = .error e) :
    t.query eng w params fromRow = .error (.Serialization e) := by
  simp [Table.query, hq, collectRows_error fromRow g pre post r e hpre hr]

/-- Witness for C8 at a concrete input: the first row deserializes, the
second does not; the whole query fails with the Serialization wrapper. -/
theorem query_row_failure_aborts_witness :
    (Table.mk "accounts" "acct INTEGER").query
        (rowsEngine [[("acct", SqlValue.integer 7)], [("other", SqlValue.null)]])
        "" [] fromRowInt =
      .error (.Serialization ⟨"missing or mistyped column"⟩) :=
  query_row_failure_aborts (Table.mk "accounts" "acct INTEGER")
    (rowsEngine [[("acct", SqlValue.integer 7)], [("other", SqlValue.null)]])
    "" [] fromRowInt readRowInt
    [[("acct", SqlValue.integer 7)]] [] [("other", SqlValue.null)]
    ⟨"missing or mistyped column"⟩ rfl
    (by
      intro r hr
      rw [List.mem_singleton] at hr
      subst hr
      rfl)
    rfl

/-- C9: `create` decides from the caller-supplied set and the force flag
alone — two sets agreeing on membership of the descriptor's name give
identical behavior, stale or not, the catalog is never re-queried (the
embedded `create` consumes nothing else) — and the DROP statement leads the
issued statements exactly when the name is in the set and force is true. -/
theorem create_decides_from_membership (t : Table) (eng : Engine) :
    (∀ (s₁ s₂ : Finset String) (force : Bool), (t.name ∈ s₁ ↔ t.name ∈ s₂) →
      t.create eng s₁ force = t.create eng s₂ force) ∧
    (∀ (s : Finset String) (force : Bool),
      (∃ rest, (t.create eng s force).1 = dropSql t.name :: rest) ↔
        (t.name ∈ s ∧ force = true)) := by
  constructor
  · intro s₁ s₂ force h
    simp only [Table.create, decide_eq_decide.mpr h]
  · intro s force
    by_cases hmem : t.name ∈ s
    · cases force with
      | false =>
        simp [Table.create, hmem]
      | true =>
        constructor
        · intro _
          exact ⟨hmem, rfl⟩
        · intro _
          cases hd : eng.execute (dropSql t.name) [] with
          | error e => exact ⟨[], by simp [Table.create, hmem, hd]⟩
          | ok m =>
            cases hc : eng.execute (createSql t.name t.def_) [] with
            | error e =>
              exact ⟨[createSql t.name t.def_], by simp [Table.create, hmem, hd, hc]⟩
            | ok k =>
              exact ⟨[createSql t.name t.def_], by simp [Table.create, hmem, hd, hc]⟩
    · have htr : (t.create eng s force).1 = [createSql t.name t.def_] := by
        cases hc : eng.execute (createSql t.name t.def_) [] <;>
          simp [Table.create, hmem, hc]
      rw [htr]
      constructor
      · rintro ⟨rest, hr⟩
        rw [List.cons.injEq] at hr
        exact absurd hr.1.symm (dropSql_ne_createSql t.name t.name t.def_)
      · rintro ⟨hmem', _⟩
        exact absurd hmem' hmem

/-- Witness for C9 at concrete inputs: a larger and a smaller set agreeing
on membership behave identically, and the forced present case leads with the
DROP statement. -/
theorem create_decides_from_membership_witness :
    (Table.mk "accounts" "acct TEXT").create okEngine {"accounts", "statuses"} true =
        (Table.mk "accounts" "acct TEXT").create okEngine {"accounts"} true ∧
      (∃ rest, ((Table.mk "accounts" "acct TEXT").create okEngine
          {"accounts"} true).1 = dropSql "accounts" :: rest) :=
  ⟨(create_decides_from_membership (Table.mk "accounts" "acct TEXT") okEngine).1
      {"accounts", "statuses"} {"accounts"} true (by decide),
   ((create_decides_from_membership (Table.mk "accounts" "acct TEXT") okEngine).2
      {"accounts"} true).mpr ⟨by decide, rfl⟩⟩

/-- C10: with an empty field list, `Table::insert` builds exactly the text
`INSERT INTO <name> () VALUES (:)` — empty column list and a lone `:`
placeholder — and hands this malformed statement on to execution rather than
rejecting it at this layer. -/
theorem insert_empty_fields_malformed (t : Table) (eng : Engine)
    (params : NamedParams) :
    insertSql t.name [] .None = "INSERT INTO " ++ t.name ++ " () VALUES (:)" ∧
      (t.insert eng (.ok params) [] .None).1 =
        ["INSERT INTO " ++ t.name ++ " () VALUES (:)"] := by
  have h1 : insertSql t.name [] .None =
      "INSERT INTO " ++ t.name ++ " () VALUES (:)" := by
    show "INSERT INTO " ++ t.name ++ " (" ++ "" ++ ") VALUES (" ++ (":" ++ "") ++ ")" =
      "INSERT INTO " ++ t.name ++ " () VALUES (:)"
    simp [String.append_assoc]
  refine ⟨h1, ?_⟩
  simp only [Table.insert, h1]
  cases eng.execute ("INSERT INTO " ++ t.name ++ " () VALUES (:)") params <;> rfl

end RusqliteHelper
